import Mathlib

/-!
Verification of the sync core of the `sekretar` backend
(`backend/app/api/sync.py` and `backend/app/models/task.py`).

The store is modelled as a list of server-side `Task` rows; the push and
pull handlers are translated directly from the Python source.  UUIDs are
modelled as `Nat`, timestamps as `Int`, Python's unbounded `int` version
counter as `Int`.
-/

namespace Sekretar

/-- Wire-level record of a task, as in the `TaskSync` pydantic model
(`sync.py` lines 19-28). -/
structure TaskSync where
  id : Nat
  title : String
  notes : Option String
  due_date : Option Int
  priority : Option String
  completed_at : Option Int
  is_deleted : Bool
  version : Int
deriving Repr, DecidableEq

/-- Server-side task row, as in the SQLAlchemy `Task` model
(`models/task.py`).  `created_at` and `modified_at` carry the
server-assigned timestamps; `version` is the conflict-resolution
counter. -/
structure Task where
  id : Nat
  user_id : Nat
  title : String
  notes : Option String
  due_date : Option Int
  priority : Option String
  project_id : Option Nat
  completed_at : Option Int
  is_deleted : Bool
  created_at : Int
  modified_at : Int
  version : Int
deriving Repr, DecidableEq

/-- Response of the push endpoint (`SyncPushResponse`, `sync.py`
lines 40-43). -/
structure SyncPushResponse where
  success : Bool
  conflicts : List Nat
  server_time : Int
deriving Repr, DecidableEq

/-- The pull response (`SyncPullResponse`, `sync.py` lines 35-37). -/
structure SyncPullResponse where
  tasks : List TaskSync
  server_time : Int
deriving Repr, DecidableEq

/-- The owner-scoped lookup of `sync.py` lines 58-61:
`select(Task).where(and_(Task.id == task_data.id, Task.user_id ==
current_user.id))` followed by `scalar_one_or_none()`. -/
def findTask : List Task → Nat → Nat → Option Task
  | [], _, _ => none
  | t :: rest, id, uid =>
    if t.id == id && t.user_id == uid then some t else findTask rest id uid

/-- In-place mutation of the found row, `sync.py` lines 70-77: all
payload fields are copied verbatim from the incoming record, the stored
version becomes `task_data.version + 1` and `modified_at` is set to the
server clock. -/
def applyUpdate (t : Task) (task_data : TaskSync) (now : Int) : Task :=
  { t with
      title := task_data.title
      notes := task_data.notes
      due_date := task_data.due_date
      priority := task_data.priority
      completed_at := task_data.completed_at
      is_deleted := task_data.is_deleted
      version := task_data.version + 1
      modified_at := now }

/-- Creation of a new row, `sync.py` lines 81-92: the version is the
client-supplied `task_data.version`, and the server-default columns
(`created_at`, `modified_at`) take the server clock, `project_id` its
default `None`. -/
def newTask (uid : Nat) (task_data : TaskSync) (now : Int) : Task :=
  { id := task_data.id
    user_id := uid
    title := task_data.title
    notes := task_data.notes
    due_date := task_data.due_date
    priority := task_data.priority
    project_id := none
    completed_at := task_data.completed_at
    is_deleted := task_data.is_deleted
    created_at := now
    modified_at := now
    version := task_data.version }

/-- Replace the first row matching `(id, uid)` by `f` of it: the effect
of SQLAlchemy mutating the single object returned by
`scalar_one_or_none()`. -/
def updateFirst (store : List Task) (id uid : Nat) (f : Task → Task) :
    List Task :=
  match store with
  | [] => []
  | t :: rest =>
    if t.id == id && t.user_id == uid then f t :: rest
    else t :: updateFirst rest id uid f

/-- One iteration of the `for task_data in data.tasks` loop of
`push_changes` (`sync.py` lines 56-92), acting on the pair
(store, conflict list accumulated so far). -/
def pushOne (uid : Nat) (now : Int) (st : List Task × List Nat)
    (task_data : TaskSync) : List Task × List Nat :=
  let store := st.1
  let conflicts := st.2
  match findTask store task_data.id uid with
  | some existing_task =>
    if existing_task.version > task_data.version then
      (store, conflicts ++ [task_data.id])
    else
      (updateFirst store task_data.id uid (fun t => applyUpdate t task_data now),
       conflicts)
  | none =>
    (store ++ [newTask uid task_data now], conflicts)

/-- The push endpoint `push_changes` (`sync.py` lines 46-100).
`last_sync_at` is accepted in the request body but never read by the
handler.  Returns the session state at `db.commit()` together with the
response.  This models the handler's in-transaction state only: the
`id` primary-key constraint the database enforces at commit time is
modelled separately by `commitPush` below. -/
def push_changes (uid : Nat) (now : Int) (last_sync_at : Option Int)
    (tasks : List TaskSync) (store : List Task) :
    List Task × SyncPushResponse :=
  let out := tasks.foldl (pushOne uid now) (store, [])
  (out.1, { success := true, conflicts := out.2, server_time := now })

/-- `db.commit()` (`sync.py` line 94) against the schema of
`models/task.py`: `id` alone is the primary key (`task.py` line 16), so
the commit persists the session state only when no two rows share an
id; otherwise the database raises IntegrityError and nothing is
persisted. -/
def commitPush (store : List Task) : Except String (List Task) :=
  if (store.map Task.id).Nodup then Except.ok store
  else Except.error "IntegrityError"

/-- The push endpoint including the commit: the handler's session state
is persisted only if it respects the id primary key. -/
def push_changes_commit (uid : Nat) (now : Int) (last_sync_at : Option Int)
    (tasks : List TaskSync) (store : List Task) :
    Except String (List Task × SyncPushResponse) :=
  let out := push_changes uid now last_sync_at tasks store
  match commitPush out.1 with
  | Except.ok st => Except.ok (st, out.2)
  | Except.error e => Except.error e

/-- Projection of a stored row to the wire format, `sync.py`
lines 123-135. -/
def toTaskSync (t : Task) : TaskSync :=
  { id := t.id
    title := t.title
    notes := t.notes
    due_date := t.due_date
    priority := t.priority
    completed_at := t.completed_at
    is_deleted := t.is_deleted
    version := t.version }

/-- "More recently modified or tied": the descending `modified_at`
order used by the pull query (`order_by(Task.modified_at.desc())`). -/
def modAfter (a b : Task) : Prop := b.modified_at ≤ a.modified_at

instance : DecidableRel modAfter := fun a b =>
  inferInstanceAs (Decidable (b.modified_at ≤ a.modified_at))

instance : IsTotal Task modAfter := ⟨fun a b => le_total b.modified_at a.modified_at⟩

instance : IsTrans Task modAfter :=
  ⟨fun _ _ _ h h' => le_trans h' h⟩

/-- The row set computed by the pull query (`sync.py` lines 112-120):
owner-scoped, optionally filtered to `modified_at > since`, ordered by
`modified_at` descending. -/
def pullTasks (uid : Nat) (since : Option Int) (store : List Task) :
    List Task :=
  let q := store.filter (fun t => t.user_id == uid)
  let q := match since with
    | some s => q.filter (fun t => t.modified_at > s)
    | none => q
  List.insertionSort modAfter q

/-- The pull endpoint `pull_changes` (`sync.py` lines 103-140). -/
def pull_changes (uid : Nat) (now : Int) (since : Option Int)
    (store : List Task) : SyncPullResponse :=
  { tasks := (pullTasks uid since store).map toTaskSync
    server_time := now }

/-! ### Helper lemmas -/

/-- `applyUpdate` touches neither the key columns. -/
theorem applyUpdate_key (t : Task) (d : TaskSync) (now : Int) :
    (applyUpdate t d now).id = t.id ∧ (applyUpdate t d now).user_id = t.user_id :=
  ⟨rfl, rfl⟩

/-- A successful owner-scoped lookup survives `updateFirst` when the
update preserves the key columns: the replaced row is found. -/
theorem findTask_updateFirst (f : Task → Task)
    (hpres : ∀ t : Task, (f t).id = t.id ∧ (f t).user_id = t.user_id)
    (store : List Task) (id uid : Nat) (cur : Task)
    (h : findTask store id uid = some cur) :
    findTask (updateFirst store id uid f) id uid = some (f cur) := by
  induction store with
  | nil => simp [findTask] at h
  | cons t rest ih =>
    by_cases hm : (t.id == id && t.user_id == uid) = true
    · rw [findTask, if_pos hm] at h
      injection h with h
      subst h
      rw [updateFirst, if_pos hm, findTask]
      have hk : ((f t).id == id && (f t).user_id == uid) = true := by
        rw [(hpres t).1, (hpres t).2]; exact hm
      rw [if_pos hk]
    · rw [findTask, if_neg hm] at h
      rw [updateFirst, if_neg hm, findTask, if_neg hm]
      exact ih h

/-- The conflict accumulator threads through `pushOne` by prepending:
the store output never depends on the conflicts accumulated so far. -/
theorem pushOne_acc (uid : Nat) (now : Int) (store : List Task)
    (cs : List Nat) (d : TaskSync) :
    pushOne uid now (store, cs) d =
      ((pushOne uid now (store, []) d).1,
        cs ++ (pushOne uid now (store, []) d).2) := by
  rcases h : findTask store d.id uid with _ | cur
  · simp [pushOne, h]
  · by_cases hv : cur.version > d.version
    · simp [pushOne, h, hv]
    · simp [pushOne, h, hv]

/-- The push fold: the final store ignores the initial conflict list and
the conflicts produced are appended to it. -/
theorem pushFold_acc (uid : Nat) (now : Int) (tasks : List TaskSync) :
    ∀ (store : List Task) (cs : List Nat),
      List.foldl (pushOne uid now) (store, cs) tasks =
        ((List.foldl (pushOne uid now) (store, []) tasks).1,
          cs ++ (List.foldl (pushOne uid now) (store, []) tasks).2) := by
  induction tasks with
  | nil => intro store cs; simp
  | cons d rest ih =>
    intro store cs
    rcases hP : pushOne uid now (store, []) d with ⟨S, C⟩
    have hacc := pushOne_acc uid now store cs d
    rw [hP] at hacc
    rw [List.foldl_cons, List.foldl_cons, hacc, hP, ih S (cs ++ C), ih S C]
    simp

/-- Lookup fails exactly when no row of the store carries the `(id, uid)`
key pair. -/
theorem findTask_eq_none (store : List Task) (id uid : Nat) :
    findTask store id uid = none ↔
      ∀ r ∈ store, ¬(r.id = id ∧ r.user_id = uid) := by
  induction store with
  | nil => simp [findTask]
  | cons t rest ih =>
    by_cases hm : (t.id == id && t.user_id == uid) = true
    · rw [findTask, if_pos hm]
      simp only [Bool.and_eq_true, beq_iff_eq] at hm
      simp [hm]
    · rw [findTask, if_neg hm]
      simp only [Bool.and_eq_true, beq_iff_eq] at hm
      rw [ih]
      simp only [List.mem_cons]
      constructor
      · intro h r hr
        rcases hr with hr | hr
        · subst hr; exact fun hk => hm ⟨hk.1, hk.2⟩
        · exact h r hr
      · intro h r hr
        exact h r (Or.inr hr)

/-- A push of a single record that finds an existing row the server is
not strictly ahead of: the handler takes the update branch, replacing
the stored row by `applyUpdate`. -/
theorem push_singleton_apply (uid : Nat) (now : Int) (ls : Option Int)
    (d : TaskSync) (store : List Task) (cur : Task)
    (hfind : findTask store d.id uid = some cur)
    (hle : cur.version ≤ d.version) :
    push_changes uid now ls [d] store =
      (updateFirst store d.id uid (fun t => applyUpdate t d now),
        { success := true, conflicts := [], server_time := now }) ∧
    findTask (push_changes uid now ls [d] store).1 d.id uid =
      some (applyUpdate cur d now) := by
  have hng : ¬(cur.version > d.version) := not_lt.mpr hle
  have h1 : push_changes uid now ls [d] store =
      (updateFirst store d.id uid (fun t => applyUpdate t d now),
        { success := true, conflicts := [], server_time := now }) := by
    simp [push_changes, pushOne, hfind, hng]
  refine ⟨h1, ?_⟩
  rw [h1]
  exact findTask_updateFirst _ (fun t => applyUpdate_key t d now)
    store d.id uid cur hfind

/-! ### Example inputs -/

/-- A stored row at version 1, owned by user 7. -/
def exCur : Task :=
  { id := 1, user_id := 7, title := "a", notes := none, due_date := none,
    priority := none, project_id := none, completed_at := none,
    is_deleted := false, created_at := 0, modified_at := 0, version := 1 }

/-- A one-row store. -/
def exStore : List Task := [exCur]

/-- Incoming record at version 5 for the same id. -/
def exInc : TaskSync :=
  { id := 1, title := "b", notes := none, due_date := none, priority := none,
    completed_at := none, is_deleted := false, version := 5 }

/-- Incoming record at version 1 (equal to the stored version). -/
def exInc1 : TaskSync := { exInc with version := 1 }

/-- Incoming record at version 0 (strictly behind the stored version). -/
def exInc0 : TaskSync := { exInc with version := 0 }

/-- A store whose only row with id 1 belongs to user 9, not user 7. -/
def exStoreOther : List Task := [{ exCur with user_id := 9 }]

/-! ### Claim theorems -/

/-- C1: for every push of a record whose id already exists for the
calling principal with `current.version <= incoming.version` (equality
included), the outcome is Apply: the stored record's version becomes
`incoming.version + 1` and no conflict is reported. -/
theorem push_existing_not_ahead_applies (uid : Nat) (now : Int)
    (ls : Option Int) (d : TaskSync) (store : List Task) (cur : Task)
    (hfind : findTask store d.id uid = some cur)
    (hle : cur.version ≤ d.version) :
    findTask (push_changes uid now ls [d] store).1 d.id uid =
      some (applyUpdate cur d now) ∧
    (applyUpdate cur d now).version = d.version + 1 ∧
    (push_changes uid now ls [d] store).2.conflicts = [] := by
  obtain ⟨h1, h2⟩ := push_singleton_apply uid now ls d store cur hfind hle
  exact ⟨h2, rfl, by rw [h1]⟩

/-- C1 witness: pushing version 1 against a stored version 1 applies
and yields stored version 2 with no conflict. -/
theorem push_existing_not_ahead_applies_witness :
    findTask (push_changes 7 100 none [exInc1] exStore).1 exInc1.id 7 =
      some (applyUpdate exCur exInc1 100) ∧
    (applyUpdate exCur exInc1 100).version = exInc1.version + 1 ∧
    (push_changes 7 100 none [exInc1] exStore).2.conflicts = [] :=
  push_existing_not_ahead_applies 7 100 none exInc1 exStore exCur
    (by decide) (by decide)

/-- C2: a push of a record the server is strictly ahead of is a
conflict: the id is reported and the store is returned entirely
unmodified. -/
theorem push_conflict_store_unmodified (uid : Nat) (now : Int)
    (ls : Option Int) (d : TaskSync) (store : List Task) (cur : Task)
    (hfind : findTask store d.id uid = some cur)
    (hgt : cur.version > d.version) :
    push_changes uid now ls [d] store =
      (store, { success := true, conflicts := [d.id], server_time := now }) := by
  simp [push_changes, pushOne, hfind, hgt]

/-- C2 witness: pushing version 0 against stored version 1 conflicts
and leaves the store unchanged. -/
theorem push_conflict_store_unmodified_witness :
    push_changes 7 100 none [exInc0] exStore =
      (exStore, { success := true, conflicts := [exInc0.id], server_time := 100 }) :=
  push_conflict_store_unmodified 7 100 none exInc0 exStore exCur
    (by decide) (by decide)

/-- C3: a push whose `(id, owner)` pair is absent always applies,
creating a new row whose version is the client-supplied version
(not version + 1), with no conflict. -/
theorem push_absent_creates_with_client_version (uid : Nat) (now : Int)
    (ls : Option Int) (d : TaskSync) (store : List Task)
    (hfind : findTask store d.id uid = none) :
    push_changes uid now ls [d] store =
      (store ++ [newTask uid d now],
        { success := true, conflicts := [], server_time := now }) ∧
    (newTask uid d now).version = d.version := by
  refine ⟨?_, rfl⟩
  simp [push_changes, pushOne, hfind]

/-- C3 witness: a first-time create against the empty store stores the
record at the client's version with no conflict. -/
theorem push_absent_creates_with_client_version_witness :
    push_changes 7 100 none [exInc] [] =
      ([] ++ [newTask 7 exInc 100],
        { success := true, conflicts := [], server_time := 100 }) ∧
    (newTask 7 exInc 100).version = exInc.version :=
  push_absent_creates_with_client_version 7 100 none exInc [] (by decide)

/-- C4 counterexample: an accepted update of an existing record does
NOT always bump the stored version by exactly 1 relative to the
previously stored version: with stored version 1 and incoming version 5
the update is accepted and the stored version becomes 6, not 2. -/
theorem version_bump_exact_counterexample :
    findTask exStore exInc.id 7 = some exCur ∧
    exCur.version ≤ exInc.version ∧
    (push_changes 7 100 none [exInc] exStore).2.conflicts = [] ∧
    (findTask (push_changes 7 100 none [exInc] exStore).1 exInc.id 7).map
      Task.version = some 6 ∧
    ¬((6 : Int) = exCur.version + 1) := by decide

/-- C4 amended: on every accepted update of an existing record the
stored version becomes `incoming.version + 1`; this strictly exceeds
the previously stored version, and equals the previously stored
version plus 1 exactly when the incoming version equals the stored
one. -/
theorem version_bump_amended (uid : Nat) (now : Int) (ls : Option Int)
    (d : TaskSync) (store : List Task) (cur : Task)
    (hfind : findTask store d.id uid = some cur)
    (hle : cur.version ≤ d.version) :
    (findTask (push_changes uid now ls [d] store).1 d.id uid).map
      Task.version = some (d.version + 1) ∧
    cur.version < d.version + 1 ∧
    (d.version + 1 = cur.version + 1 ↔ d.version = cur.version) := by
  obtain ⟨-, h2⟩ := push_singleton_apply uid now ls d store cur hfind hle
  refine ⟨?_, ?_, ?_⟩
  · rw [h2]; rfl
  · exact lt_of_le_of_lt hle (lt_add_one _)
  · exact ⟨fun h => by omega, fun h => by omega⟩

/-- C4 amended witness: stored version 1, incoming version 5, stored
becomes 6 which strictly exceeds 1. -/
theorem version_bump_amended_witness :
    (findTask (push_changes 7 100 none [exInc] exStore).1 exInc.id 7).map
      Task.version = some (exInc.version + 1) ∧
    exCur.version < exInc.version + 1 ∧
    (exInc.version + 1 = exCur.version + 1 ↔ exInc.version = exCur.version) :=
  version_bump_amended 7 100 none exInc exStore exCur (by decide) (by decide)

/-- C5: evaluating the code at the failing input — id 1 already stored
for owner 9, pushed by owner 7.  The owner-scoped lookup misses the
foreign row, so the handler stages an insert of a second row with the
same id; but `id` alone is the primary key, so the commit raises
IntegrityError: the request errors and no record is created for the
caller, contrary to the claim. -/
theorem push_cross_owner_commit_errors :
    findTask exStoreOther exInc.id 7 = none ∧
    (push_changes 7 100 none [exInc] exStoreOther).1 =
      exStoreOther ++ [newTask 7 exInc 100] ∧
    push_changes_commit 7 100 none [exInc] exStoreOther =
      Except.error "IntegrityError" :=
  ⟨by decide, by decide, by rfl⟩

/-- C6: the batch response's `success` field is always true, the whole
result is independent of `last_sync_at`, and the batch is processed
record by record: a batch `ts1 ++ ts2` yields the store obtained by
processing `ts1` then `ts2`, with the conflict lists concatenated. -/
theorem push_batch_success_and_ignores_last_sync (uid : Nat) (now : Int)
    (ls1 ls2 : Option Int) (ts1 ts2 : List TaskSync) (store : List Task) :
    (push_changes uid now ls1 (ts1 ++ ts2) store).2.success = true ∧
    push_changes uid now ls1 (ts1 ++ ts2) store =
      push_changes uid now ls2 (ts1 ++ ts2) store ∧
    push_changes uid now ls1 (ts1 ++ ts2) store =
      ((push_changes uid now ls1 ts2
          (push_changes uid now ls1 ts1 store).1).1,
        { success := true,
          conflicts := (push_changes uid now ls1 ts1 store).2.conflicts ++
            (push_changes uid now ls1 ts2
              (push_changes uid now ls1 ts1 store).1).2.conflicts,
          server_time := now }) := by
  refine ⟨rfl, rfl, ?_⟩
  simp only [push_changes, List.foldl_append]
  rcases h1 : List.foldl (pushOne uid now) (store, []) ts1 with ⟨S, C⟩
  rw [pushFold_acc uid now ts2 S C]

/-- C7: with a cursor, a pull returns exactly the principal's rows with
`modified_at` strictly greater than the cursor (equality excluded),
with no condition on `is_deleted`; with no cursor it returns exactly
the principal's rows, tombstones included. -/
theorem pull_membership_characterization (uid : Nat) (store : List Task)
    (r : Task) :
    (∀ s : Int, r ∈ pullTasks uid (some s) store ↔
      r ∈ store ∧ r.user_id = uid ∧ s < r.modified_at) ∧
    (r ∈ pullTasks uid none store ↔ r ∈ store ∧ r.user_id = uid) := by
  constructor
  · intro s
    simp only [pullTasks, List.mem_insertionSort, List.mem_filter,
      Bool.and_eq_true, beq_iff_eq, decide_eq_true_eq, gt_iff_lt]
    tauto
  · simp only [pullTasks, List.mem_insertionSort, List.mem_filter,
      beq_iff_eq]

/-- C8: pulled rows are ordered by `modified_at` descending (each row's
`modified_at` is at least every later row's), and the response maps
these rows to the wire format in that order. -/
theorem pull_sorted_descending (uid : Nat) (now : Int)
    (since : Option Int) (store : List Task) :
    (pull_changes uid now since store).tasks =
      (pullTasks uid since store).map toTaskSync ∧
    List.Sorted modAfter (pullTasks uid since store) :=
  ⟨rfl, List.sorted_insertionSort modAfter _⟩

/-- C9: repeated conflict is stable: pushing the same stale record any
number of times against unchanged server state conflicts every time and
never mutates the store. -/
theorem push_conflict_repeat_stable (uid : Nat) (now : Int)
    (ls : Option Int) (d : TaskSync) (store : List Task) (cur : Task)
    (n : Nat)
    (hfind : findTask store d.id uid = some cur)
    (hgt : cur.version > d.version) :
    push_changes uid now ls (List.replicate n d) store =
      (store,
        { success := true
          conflicts := List.replicate n d.id
          server_time := now }) := by
  have hstep : ∀ cs, pushOne uid now (store, cs) d = (store, cs ++ [d.id]) := by
    intro cs; simp [pushOne, hfind, hgt]
  have hfold : ∀ (m : Nat) (cs : List Nat),
      List.foldl (pushOne uid now) (store, cs) (List.replicate m d) =
        (store, cs ++ List.replicate m d.id) := by
    intro m
    induction m with
    | zero => intro cs; simp
    | succ k ihk =>
      intro cs
      rw [List.replicate_succ, List.foldl_cons, hstep cs, ihk]
      simp [List.replicate_succ]
  simp [push_changes, hfold n []]

/-- C9 witness: three consecutive pushes of a stale version 0 record
against a stored version 1 each conflict and leave the store as it
was. -/
theorem push_conflict_repeat_stable_witness :
    push_changes 7 100 none (List.replicate 3 exInc0) exStore =
      (exStore,
        { success := true
          conflicts := List.replicate 3 exInc0.id
          server_time := 100 }) :=
  push_conflict_repeat_stable 7 100 none exInc0 exStore exCur 3
    (by decide) (by decide)

/-- C10: an accepted update of an existing record strictly increases
the stored version: the updated row's version is at least the previous
stored version plus 1, so it never decreases or stays equal. -/
theorem push_update_version_never_decreases (uid : Nat) (now : Int)
    (ls : Option Int) (d : TaskSync) (store : List Task) (cur : Task)
    (hfind : findTask store d.id uid = some cur)
    (hle : cur.version ≤ d.version) :
    ∃ updated : Task,
      findTask (push_changes uid now ls [d] store).1 d.id uid = some updated ∧
      cur.version + 1 ≤ updated.version := by
  obtain ⟨-, h2⟩ := push_singleton_apply uid now ls d store cur hfind hle
  exact ⟨applyUpdate cur d now, h2, by
    show cur.version + 1 ≤ d.version + 1
    omega⟩

/-- C10 witness: stored version 1 with incoming version 1: the updated
stored version is 2, at least the previous version plus 1. -/
theorem push_update_version_never_decreases_witness :
    ∃ updated : Task,
      findTask (push_changes 7 100 none [exInc1] exStore).1 exInc1.id 7 =
        some updated ∧
      exCur.version + 1 ≤ updated.version :=
  push_update_version_never_decreases 7 100 none exInc1 exStore exCur
    (by decide) (by decide)

end Sekretar
